import Mathlib

/-!
Verification of the authentication layer of the timecard Cloudflare Worker.

The development shallowly embeds the TypeScript sources under `src/src/auth/`
(`types.ts`, `session.ts` (exported through `auth/index.ts`), `middleware.ts`,
`cf-access.ts`, `google-oauth.ts`, `lineworks-oauth.ts`) into Lean:

* Pure string functions (`isEmailAllowed`, `isPublicPath`, the anti-forgery
  state codec) are translated literally, with small executable models of the
  JavaScript string builtins they rely on (`toLowerCase`, `split`, `trim`,
  `startsWith`, `endsWith`, `btoa`, `atob`, `JSON.stringify` / `JSON.parse`
  restricted to the state object shape).
* JWTs are modelled symbolically: a token records its header algorithm, its
  claims, and the key material it was signed with; `jose.jwtVerify` succeeds
  exactly when the verifying key matches and the temporal claims pass against
  the `currentDate` in force (per jose: `nbf` fails iff `nbf > now`, `exp`
  fails iff `exp <= now`).
* Network effects (token exchange, profile fetch, JWKS fetch) are supplied as
  oracle records describing the responses the worker observed, and `Date.now()`
  is passed in explicitly.
* Fallible TypeScript code (thrown exceptions, `try/catch`) is modelled with
  `Option` / `Except`.
-/

/- ===================== JavaScript string builtin models ===================== -/

/-- ASCII model of JavaScript `String.prototype.toLowerCase` (the code only
lowercases email addresses and allowlist entries, which are ASCII). -/
def jsToLower (s : String) : String := ⟨s.data.map Char.toLower⟩

/-- Accumulator loop behind `jsSplit`. -/
def jsSplitAux (sep : Char) : List Char → List Char → List String
  | [], acc => [⟨acc.reverse⟩]
  | c :: rest, acc =>
    if c = sep then ⟨acc.reverse⟩ :: jsSplitAux sep rest []
    else jsSplitAux sep rest (c :: acc)

/-- Model of JavaScript `String.prototype.split` with a one-character
separator: `"".split(',') = [""]`, `",".split(',') = ["", ""]`, etc. -/
def jsSplit (s : String) (sep : Char) : List String := jsSplitAux sep s.data []

/-- The whitespace characters relevant to `String.prototype.trim` for the
configuration strings at hand. -/
def jsWhitespace (c : Char) : Bool :=
  c = ' ' || c = '\t' || c = '\n' || c = '\r' || c = '\x0b' || c = '\x0c'

/-- Model of JavaScript `String.prototype.trim`. -/
def jsTrim (s : String) : String :=
  ⟨((s.data.dropWhile jsWhitespace).reverse.dropWhile jsWhitespace).reverse⟩

/-- Model of JavaScript `s.startsWith(p)`. -/
def jsStartsWith (s p : String) : Bool := p.data.isPrefixOf s.data

/-- Model of JavaScript `s.endsWith(sfx)`. -/
def jsEndsWith (s sfx : String) : Bool := sfx.data.reverse.isPrefixOf s.data.reverse

/-- JavaScript truthiness of a `string | null | undefined` value: `null`,
`undefined` and the empty string are falsy. -/
def jsTruthy : Option String → Bool
  | none => false
  | some s => s ≠ ""

/-- JavaScript `x || d` for `x : string | null | undefined` and a string
default `d`. -/
def jsOrElse (o : Option String) (d : String) : String :=
  match o with
  | some s => if s = "" then d else s
  | none => d

/- ===================== types.ts : isEmailAllowed ===================== -/

/-- From `src/src/auth/types.ts` (`isEmailAllowed`): comma-separated
allowlist; entries starting with `@` are domain-suffix filters, all others are
exact matches; everything is compared lowercased, entries are trimmed. -/
def isEmailAllowed (email : String) (allowedEmails : String) : Bool :=
  let emailLower := jsToLower email
  let entries := (jsSplit allowedEmails ',').map (fun e => jsToLower (jsTrim e))
  entries.any (fun entry =>
    if jsStartsWith entry "@" then jsEndsWith emailLower entry
    else emailLower == entry)

/- ===================== middleware.ts : isPublicPath ===================== -/

/-- From `src/src/auth/middleware.ts` (`PUBLIC_PATHS`). -/
def PUBLIC_PATHS : List String :=
  ["/login", "/login/page", "/login/google", "/login/lineworks",
   "/login/lineworks/app", "/login/woff", "/auth/google/callback",
   "/auth/lineworks/callback", "/auth/woff/callback", "/logout", "/sw.js",
   "/manifest.webmanifest", "/icon-192.png", "/icon-512.png",
   "/api/broadcast", "/api/auth/check"]

/-- From `src/src/auth/middleware.ts` (`isPublicPath`):
`PUBLIC_PATHS.some((p) => path === p || path.startsWith(p + '?'))`. -/
def isPublicPath (path : String) : Bool :=
  PUBLIC_PATHS.any (fun p => path == p || jsStartsWith path (p ++ "?"))

/- ===================== Theorems C8 and C9 ===================== -/

/-- C8: with allowlist `"@example.com,admin@foo.com"`, `isEmailAllowed`
accepts `alice@example.com`, `ALICE@EXAMPLE.COM` and `admin@foo.com` and
denies `eve@other.com`; and in general an email is allowed iff some
comma-separated entry (trimmed and lowercased) matches it, entries starting
with `@` matching any email whose lowercased form ends with that suffix and
all other entries matching the lowercased email exactly. -/
theorem c8_email_allowlist :
    (isEmailAllowed "alice@example.com" "@example.com,admin@foo.com" = true
      ∧ isEmailAllowed "ALICE@EXAMPLE.COM" "@example.com,admin@foo.com" = true
      ∧ isEmailAllowed "admin@foo.com" "@example.com,admin@foo.com" = true
      ∧ isEmailAllowed "eve@other.com" "@example.com,admin@foo.com" = false)
    ∧ ∀ (email allowed : String),
        isEmailAllowed email allowed = true ↔
          ∃ e ∈ (jsSplit allowed ',').map (fun x => jsToLower (jsTrim x)),
            (if jsStartsWith e "@" then jsEndsWith (jsToLower email) e
             else jsToLower email == e) = true := by
  constructor
  · exact ⟨by decide, by decide, by decide, by decide⟩
  · intro email allowed
    simp only [isEmailAllowed, List.any_eq_true]

/-- C9: `isPublicPath p` is true iff `p` equals one of the fixed public paths
or starts with a public path immediately followed by `?`; in particular
`/login` and `/login?x=1` and `/login/google` are public while `/loginX` is
not. -/
theorem c9_public_paths :
    (isPublicPath "/login" = true ∧ isPublicPath "/loginX" = false
      ∧ isPublicPath "/login?x=1" = true ∧ isPublicPath "/login/google" = true)
    ∧ ∀ path : String, isPublicPath path = true ↔
        ∃ p ∈ PUBLIC_PATHS, path = p ∨ jsStartsWith path (p ++ "?") = true := by
  constructor
  · exact ⟨by decide, by decide, by decide, by decide⟩
  · intro path
    simp only [isPublicPath, List.any_eq_true, Bool.or_eq_true, beq_iff_eq]

/- ===================== Symbolic JWT layer (jose) ===================== -/

/-- The JWT claims occurring in this code base (absent claim = `none`). -/
structure JwtClaims where
  sub : Option String
  email : Option String
  name : Option String
  provider : Option String
  type : Option String
  aud : Option String
  iat : Option Int
  exp : Option Int
  nbf : Option Int
deriving DecidableEq

/-- Symbolic model of a signed compact JWT: the protected-header algorithm,
the claims set, and the key material the token was signed with. Verification
against a key succeeds exactly when the key matches (a perfect-cryptography
abstraction of HMAC / JWKS signatures). -/
structure Jwt where
  alg : String
  claims : JwtClaims
  key : String
deriving DecidableEq

/-- Model of `new jose.SignJWT(claims).setProtectedHeader({alg:'HS256'}).sign(secret)`. -/
def signJWT (claims : JwtClaims) (secret : String) : Jwt := ⟨"HS256", claims, secret⟩

/-- jose's temporal claim validation with clock `nowSec` (seconds) and zero
tolerance: `nbf` fails iff `nbf > now`; `exp` fails iff `exp <= now`. -/
def validateTimeClaims (c : JwtClaims) (nowSec : Int) : Bool :=
  (match c.nbf with
   | some n => decide (n ≤ nowSec)
   | none => true) &&
  (match c.exp with
   | some e => decide (nowSec < e)
   | none => true)

/-- jose's audience option: when an expected audience is configured the `aud`
claim must equal it. -/
def checkAudience (c : JwtClaims) (audience : Option String) : Bool :=
  match audience with
  | none => true
  | some a => c.aud == some a

/-- Model of `jose.jwtVerify(token, secret, {currentDate})` with a symmetric
secret: signature check plus temporal claims against the supplied clock. -/
def jwtVerify (t : Jwt) (secret : String) (nowSec : Int) : Option JwtClaims :=
  if t.alg == "HS256" && t.key == secret && validateTimeClaims t.claims nowSec
  then some t.claims else none

/-- A JWKS public key, symbolic. -/
abbrev JWK := String

/-- Model of `jose.jwtVerify(jwt, jose.createLocalJWKSet({keys}), opts)`:
the token's key must be in the published set, the audience option (if any)
must hold, and the temporal claims must pass against the real clock. -/
def jwksVerify (t : Jwt) (keys : List JWK) (audience : Option String)
    (nowSec : Int) : Option JwtClaims :=
  if keys.contains t.key && checkAudience t.claims audience
      && validateTimeClaims t.claims nowSec
  then some t.claims else none

/- ===================== Environment and request models ===================== -/

/-- From `src/src/auth/google-oauth.ts`: one parsed entry of
`GOOGLE_OAUTH_CONFIG`. -/
structure GoogleOAuthConfig where
  client_id : String
  client_secret : String
deriving DecidableEq

/-- From `src/src/auth/lineworks-oauth.ts`: parsed `LINEWORKS_CONFIG`. -/
structure LineworksConfig where
  client_id : String
  client_secret : String
deriving DecidableEq

/-- The worker environment (`Env` in `types.ts`), restricted to the fields the
authentication code reads. The two provider configuration strings are
modelled pre-parsed: `none` means `JSON.parse` (or the emptiness check in
`getConfig`) throws at the point of use. -/
structure Env where
  JWT_SECRET : String
  ALLOWED_EMAILS : Option String
  CF_ACCESS_TEAM_NAME : String
  CF_ACCESS_AUD : Option String
  googleConfig : Option GoogleOAuthConfig
  lineworksConfig : Option LineworksConfig
deriving DecidableEq

/-- A request as seen by the middleware / session layer: the
`CF-Access-Jwt-Assertion` header, and the `Cookie` header modelled as the
parsed cookie jar produced by `parseCookies`, with JWT-valued cookies held
symbolically. -/
structure Request where
  cfAccessJwt : Option Jwt
  cookies : List (String × Jwt)
deriving DecidableEq

/-- JavaScript record semantics for the object built by `parseCookies` and
then indexed: later bindings of the same cookie name overwrite earlier ones. -/
def recGet {α : Type} (jar : List (String × α)) (key : String) : Option α :=
  jar.foldl (fun acc kv => if kv.1 == key then some kv.2 else acc) none

/- ===================== session.ts ===================== -/

/-- `SESSION_COOKIE_NAME` in `session.ts`. -/
def SESSION_COOKIE_NAME : String := "tc_session"

/-- `SESSION_DURATION` in `session.ts` (24 hours, seconds). -/
def SESSION_DURATION : Int := 24 * 60 * 60

/-- `TEMP_TOKEN_DURATION` in `session.ts` (5 minutes, seconds). -/
def TEMP_TOKEN_DURATION : Int := 5 * 60

/-- The argument type `Omit<SessionPayload, 'iat' | 'exp'>` of the minting
functions. -/
structure SessionInput where
  sub : String
  email : String
  name : String
  provider : String
deriving DecidableEq

/-- The object returned by `verifySessionCookie`: the TypeScript code casts
possibly-absent claims with `as`, so every field may in truth be undefined;
the model keeps them as `Option`s. -/
structure SessionUser where
  sub : Option String
  email : Option String
  name : Option String
  provider : Option String
  iat : Option Int
  exp : Option Int
deriving DecidableEq

/-- A `Set-Cookie` instruction, structured. -/
structure SetCookie where
  name : String
  value : Jwt
  path : String
  httpOnly : Bool
  secure : Bool
  sameSite : String
  maxAge : Int
deriving DecidableEq

/-- From `session.ts` (`createSessionCookie`): signs
`{sub, email, name, provider}` with HS256 under `env.JWT_SECRET`, issued-at
`now`, expiry `now + SESSION_DURATION`, and wraps it in the session cookie
(`Path=/; HttpOnly; Secure; SameSite=Lax; Max-Age=SESSION_DURATION`). -/
def createSessionCookie (payload : SessionInput) (env : Env) (now : Int) : SetCookie :=
  ⟨SESSION_COOKIE_NAME,
   signJWT
     ⟨some payload.sub, some payload.email, some payload.name,
      some payload.provider, none, none, some now, some (now + SESSION_DURATION),
      none⟩
     env.JWT_SECRET,
   "/", true, true, "Lax", SESSION_DURATION⟩

/-- From `session.ts` (`verifySessionCookie`): reads the `tc_session` cookie,
then verifies the signature only — `jose.jwtVerify` is called with
`currentDate: new Date(0)`, i.e. the temporal claims are checked against
epoch second 0 rather than the real clock. Any failure is caught and
becomes `null`. -/
def verifySessionCookie (req : Request) (env : Env) : Option SessionUser :=
  match recGet req.cookies SESSION_COOKIE_NAME with
  | none => none
  | some token =>
    match jwtVerify token env.JWT_SECRET 0 with
    | none => none
    | some p => some ⟨p.sub, p.email, p.name, p.provider, p.iat, p.exp⟩

/-- From `session.ts` (`createTempToken`): same claims plus the
`type: 'temp'` discriminator, 5-minute lifetime, same secret; returns the
bare token. -/
def createTempToken (payload : SessionInput) (env : Env) (now : Int) : Jwt :=
  signJWT
    ⟨some payload.sub, some payload.email, some payload.name,
     some payload.provider, some "temp", none, some now,
     some (now + TEMP_TOKEN_DURATION), none⟩
    env.JWT_SECRET

/-- From `session.ts` (`verifyTempToken`): verifies with the default jose
clock (the real current time, so here expiry IS enforced), then rejects any
payload whose `type` claim is not `'temp'`. -/
def verifyTempToken (token : Jwt) (env : Env) (nowSec : Int) :
    Option (Option String × Option String × Option String × Option String) :=
  match jwtVerify token env.JWT_SECRET nowSec with
  | none => none
  | some p =>
    if p.type ≠ some "temp" then none
    else some (p.sub, p.email, p.name, p.provider)

/- ===================== Theorems C1, C3, C6, C7 ===================== -/

/-- A request whose cookie jar carries exactly one cookie. -/
def requestWithCookie (name : String) (value : Jwt) : Request :=
  ⟨none, [(name, value)]⟩

/-- C1: a session token minted with the configured secret is accepted by
`verifySessionCookie` and yields the embedded identity regardless of its
`expiresAt` claim: for every mint time `t0` (non-negative, as `Date.now()`
is) and every current time `now` with `t0 + SESSION_DURATION < now` — i.e.
the embedded expiry lies strictly in the past — verification still succeeds;
expiry is left to the cookie's own `Max-Age`. -/
theorem c1_session_verify_ignores_expiry
    (payload : SessionInput) (env : Env) (t0 now : Int)
    (ht0 : 0 ≤ t0) (hexpired : t0 + SESSION_DURATION < now) :
    verifySessionCookie
        (requestWithCookie SESSION_COOKIE_NAME (createSessionCookie payload env t0).value)
        env
      = some ⟨some payload.sub, some payload.email, some payload.name,
              some payload.provider, some t0, some (t0 + SESSION_DURATION)⟩ := by
  have hpos : (0 : Int) < t0 + SESSION_DURATION := by
    simp only [SESSION_DURATION] at *
    omega
  simp [verifySessionCookie, requestWithCookie, recGet, createSessionCookie,
    signJWT, jwtVerify, validateTimeClaims, hpos]

/-- Witness for C1 at concrete inputs. -/
theorem c1_session_verify_ignores_expiry_witness :
    verifySessionCookie
        (requestWithCookie SESSION_COOKIE_NAME
          (createSessionCookie ⟨"s1", "a@b.c", "Alice", "google"⟩
            ⟨"sec", none, "team", none, none, none⟩ 1000).value)
        ⟨"sec", none, "team", none, none, none⟩
      = some ⟨some "s1", some "a@b.c", some "Alice", some "google",
              some 1000, some (1000 + SESSION_DURATION)⟩ :=
  c1_session_verify_ignores_expiry ⟨"s1", "a@b.c", "Alice", "google"⟩
    ⟨"sec", none, "team", none, none, none⟩ 1000 1000000000
    (by decide) (by decide)

/-- C3: minting a session credential and verifying it on a request that
presents the resulting cookie returns an identity equal to the input on
`sub`, `email`, `name` and `provider` (the model also pins `iat`/`exp`). -/
theorem c3_mint_verify_roundtrip
    (payload : SessionInput) (env : Env) (t0 : Int) (ht0 : 0 ≤ t0) :
    verifySessionCookie
        (requestWithCookie SESSION_COOKIE_NAME (createSessionCookie payload env t0).value)
        env
      = some ⟨some payload.sub, some payload.email, some payload.name,
              some payload.provider, some t0, some (t0 + SESSION_DURATION)⟩ := by
  have hpos : (0 : Int) < t0 + SESSION_DURATION := by
    simp only [SESSION_DURATION]
    omega
  simp [verifySessionCookie, requestWithCookie, recGet, createSessionCookie,
    signJWT, jwtVerify, validateTimeClaims, hpos]

/-- Witness for C3 at concrete inputs. -/
theorem c3_mint_verify_roundtrip_witness :
    verifySessionCookie
        (requestWithCookie SESSION_COOKIE_NAME
          (createSessionCookie ⟨"u7", "x@y.z", "Bob", "lineworks"⟩
            ⟨"k0", some "@y.z", "t", none, none, none⟩ 42).value)
        ⟨"k0", some "@y.z", "t", none, none, none⟩
      = some ⟨some "u7", some "x@y.z", some "Bob", some "lineworks",
              some 42, some (42 + SESSION_DURATION)⟩ :=
  c3_mint_verify_roundtrip ⟨"u7", "x@y.z", "Bob", "lineworks"⟩
    ⟨"k0", some "@y.z", "t", none, none, none⟩ 42 (by decide)

/-- C6: a bridging token minted by `createTempToken`, presented as the value
of the session cookie, is accepted by `verifySessionCookie`, which returns
that identity: the session check verifies only the signature, so the
`type: 'temp'` discriminator does not stop the 5-minute token from serving as
a session credential — even at a time `now` strictly after its expiry. -/
theorem c6_temp_token_accepted_as_session
    (payload : SessionInput) (env : Env) (t0 now : Int)
    (ht0 : 0 ≤ t0) (hexpired : t0 + TEMP_TOKEN_DURATION < now) :
    verifySessionCookie
        (requestWithCookie SESSION_COOKIE_NAME (createTempToken payload env t0))
        env
      = some ⟨some payload.sub, some payload.email, some payload.name,
              some payload.provider, some t0, some (t0 + TEMP_TOKEN_DURATION)⟩ := by
  have hpos : (0 : Int) < t0 + TEMP_TOKEN_DURATION := by
    simp only [TEMP_TOKEN_DURATION] at *
    omega
  simp [verifySessionCookie, requestWithCookie, recGet, createTempToken,
    signJWT, jwtVerify, validateTimeClaims, hpos]

/-- Witness for C6 at concrete inputs. -/
theorem c6_temp_token_accepted_as_session_witness :
    verifySessionCookie
        (requestWithCookie SESSION_COOKIE_NAME
          (createTempToken ⟨"id9", "m@n.o", "Mallory", "google"⟩
            ⟨"sk", none, "tm", none, none, none⟩ 500))
        ⟨"sk", none, "tm", none, none, none⟩
      = some ⟨some "id9", some "m@n.o", some "Mallory", some "google",
              some 500, some (500 + TEMP_TOKEN_DURATION)⟩ :=
  c6_temp_token_accepted_as_session ⟨"id9", "m@n.o", "Mallory", "google"⟩
    ⟨"sk", none, "tm", none, none, none⟩ 500 999999 (by decide) (by decide)

/-- C7: any token that verifies under the symmetric secret but whose payload
lacks the `type = 'temp'` discriminator (absent or different) is rejected by
`verifyTempToken`. -/
theorem c7_verify_temp_rejects_missing_discriminator
    (t : Jwt) (env : Env) (nowSec : Int) (p : JwtClaims)
    (hver : jwtVerify t env.JWT_SECRET nowSec = some p)
    (hty : p.type ≠ some "temp") :
    verifyTempToken t env nowSec = none := by
  simp [verifyTempToken, hver, hty]

/-- Witness for C7: a freshly minted (non-expired) session token verifies
under the secret yet is rejected by `verifyTempToken`. -/
theorem c7_verify_temp_rejects_missing_discriminator_witness :
    verifyTempToken (createSessionCookie ⟨"s", "e@f.g", "N", "google"⟩
        ⟨"sec2", none, "t", none, none, none⟩ 10).value
      ⟨"sec2", none, "t", none, none, none⟩ 20 = none :=
  c7_verify_temp_rejects_missing_discriminator
    (createSessionCookie ⟨"s", "e@f.g", "N", "google"⟩
        ⟨"sec2", none, "t", none, none, none⟩ 10).value
    ⟨"sec2", none, "t", none, none, none⟩ 20
    ⟨some "s", some "e@f.g", some "N", some "google", none, none,
     some 10, some (10 + SESSION_DURATION), none⟩
    (by decide) (by decide)

/- ===================== cf-access.ts and middleware.ts ===================== -/

/-- `CACHE_DURATION` in `cf-access.ts` (1 hour, milliseconds). -/
def CACHE_DURATION : Int := 60 * 60 * 1000

/-- The module-level `certsCache` in `cf-access.ts`. -/
structure CertsCache where
  keys : List JWK
  fetchedAt : Int
deriving DecidableEq

/-- Oracle for the one `fetch` of the JWKS endpoint: `ok` is
`response.ok`, `keys` the parsed body on success. -/
structure FetchResponse where
  ok : Bool
  keys : List JWK
deriving DecidableEq

/-- From `cf-access.ts` (`getCerts`): return the cached key set if it is
younger than `CACHE_DURATION`; otherwise fetch once — a non-2xx response
throws (`Failed to fetch CF Access certs`), a 2xx response replaces the
cache. Returns the keys together with the cache cell after the call. -/
def getCerts (cache : Option CertsCache) (nowMs : Int) (resp : FetchResponse) :
    Except String (List JWK × Option CertsCache) :=
  match cache with
  | some c =>
    if nowMs - c.fetchedAt < CACHE_DURATION then .ok (c.keys, some c)
    else if resp.ok then .ok (resp.keys, some ⟨resp.keys, nowMs⟩)
    else .error "Failed to fetch CF Access certs"
  | none =>
    if resp.ok then .ok (resp.keys, some ⟨resp.keys, nowMs⟩)
    else .error "Failed to fetch CF Access certs"

/-- From `cf-access.ts` (`verifyCfAccessJwt`): absent header means `null`
(this source simply not present). Otherwise the whole body — including the
`getCerts` call — runs inside `try { ... } catch { return null }`, so a
failed key-set fetch is caught and becomes `null` as well; on success the
JWT is verified against the key set (audience enforced only when
`CF_ACCESS_AUD` is configured) and an identity with `provider: 'cf_access'`
and `name` defaulted to the email claim is returned. The cache cell after
the call is returned alongside. -/
def verifyCfAccessJwt (req : Request) (env : Env) (cache : Option CertsCache)
    (nowMs : Int) (resp : FetchResponse) : Option SessionUser × Option CertsCache :=
  match req.cfAccessJwt with
  | none => (none, cache)
  | some jwt =>
    match getCerts cache nowMs resp with
    | .error _ => (none, cache)
    | .ok (keys, cache2) =>
      match jwksVerify jwt keys env.CF_ACCESS_AUD (nowMs / 1000) with
      | none => (none, cache2)
      | some p =>
        (some ⟨p.sub, some (jsOrElse p.email ""), some (jsOrElse p.email ""),
               some "cf_access", p.iat, p.exp⟩,
         cache2)

/-- `AuthResult` in `types.ts`. -/
structure AuthResult where
  authenticated : Bool
  user : Option SessionUser
deriving DecidableEq

/-- From `middleware.ts` (`authMiddleware`): Cloudflare Access first, then
the session cookie, else unauthenticated. -/
def authMiddleware (req : Request) (env : Env) (cache : Option CertsCache)
    (nowMs : Int) (resp : FetchResponse) : AuthResult × Option CertsCache :=
  match verifyCfAccessJwt req env cache nowMs resp with
  | (some u, c2) => (⟨true, some u⟩, c2)
  | (none, c2) =>
    match verifySessionCookie req env with
    | some u => (⟨true, some u⟩, c2)
    | none => (⟨false, none⟩, c2)

/- ===================== Claim C5 (corrected) ===================== -/

/-- The JWKS cache is empty or older than its TTL. -/
def cacheStale (cache : Option CertsCache) (nowMs : Int) : Prop :=
  match cache with
  | none => True
  | some c => CACHE_DURATION ≤ nowMs - c.fetchedAt

/-- C5 counterexample: with the assertion header present, an empty key
cache and a failed (non-2xx) key-set fetch, the claimed `KeySetUnavailable`
/ 500 `UpstreamError` never materialises — `verifyCfAccessJwt` absorbs the
failure into a `null` ("not authenticated via this source") result, and the
middleware reports plain unauthenticated. -/
theorem c5_keyset_failure_counterexample :
    verifyCfAccessJwt ⟨some ⟨"RS256", ⟨none, none, none, none, none, none, none, none, none⟩, "k1"⟩, []⟩
        ⟨"sec", none, "team", none, none, none⟩ none 0 ⟨false, []⟩
      = (none, none)
    ∧ (authMiddleware ⟨some ⟨"RS256", ⟨none, none, none, none, none, none, none, none, none⟩, "k1"⟩, []⟩
        ⟨"sec", none, "team", none, none, none⟩ none 0 ⟨false, []⟩).1
      = ⟨false, none⟩ := by
  constructor
  · rfl
  · rfl

/-- C5 amended: when the assertion header is present and the cache is empty
or stale, a failed key-set fetch makes `getCerts` throw, but
`verifyCfAccessJwt` catches the error and returns `null` with the cache
unchanged — it is absorbed into "not authenticated via this source", the
request falls through to the session-cookie check, and no 500 is produced by
this path. -/
theorem c5_keyset_failure_absorbed_to_null
    (req : Request) (env : Env) (cache : Option CertsCache) (nowMs : Int)
    (resp : FetchResponse) (jwt : Jwt)
    (hjwt : req.cfAccessJwt = some jwt)
    (hstale : cacheStale cache nowMs)
    (hfail : resp.ok = false) :
    verifyCfAccessJwt req env cache nowMs resp = (none, cache)
    ∧ authMiddleware req env cache nowMs resp
      = (match verifySessionCookie req env with
         | some u => (⟨true, some u⟩, cache)
         | none => (⟨false, none⟩, cache)) := by
  have hcerts : getCerts cache nowMs resp = .error "Failed to fetch CF Access certs" := by
    match cache with
    | none => simp [getCerts, hfail]
    | some c =>
      simp only [cacheStale] at hstale
      have : ¬ (nowMs - c.fetchedAt < CACHE_DURATION) := by omega
      simp [getCerts, hfail, this]
  have hver : verifyCfAccessJwt req env cache nowMs resp = (none, cache) := by
    simp [verifyCfAccessJwt, hjwt, hcerts]
  refine ⟨hver, ?_⟩
  simp only [authMiddleware, hver]

/-- Witness for the amended C5 at concrete inputs. -/
theorem c5_keyset_failure_absorbed_to_null_witness :
    verifyCfAccessJwt ⟨some ⟨"RS256", ⟨none, none, none, none, none, none, none, none, none⟩, "k2"⟩, []⟩
        ⟨"s", none, "tm", none, none, none⟩ (some ⟨["k2"], 0⟩) (2 * CACHE_DURATION) ⟨false, []⟩
      = (none, some ⟨["k2"], 0⟩)
    ∧ authMiddleware ⟨some ⟨"RS256", ⟨none, none, none, none, none, none, none, none, none⟩, "k2"⟩, []⟩
        ⟨"s", none, "tm", none, none, none⟩ (some ⟨["k2"], 0⟩) (2 * CACHE_DURATION) ⟨false, []⟩
      = (⟨false, none⟩, some ⟨["k2"], 0⟩) := by
  have h := c5_keyset_failure_absorbed_to_null
    ⟨some ⟨"RS256", ⟨none, none, none, none, none, none, none, none, none⟩, "k2"⟩, []⟩
    ⟨"s", none, "tm", none, none, none⟩ (some ⟨["k2"], 0⟩) (2 * CACHE_DURATION) ⟨false, []⟩
    ⟨"RS256", ⟨none, none, none, none, none, none, none, none, none⟩, "k2"⟩
    rfl (by simp [cacheStale, CACHE_DURATION]) rfl
  exact ⟨h.1, by rw [h.2]; rfl⟩


/- ===================== base64 (btoa / atob) ===================== -/

/-- The base64 alphabet, as a function from sextet value to character. -/
def sextetChar (n : Nat) : Char :=
  if n < 26 then Char.ofNat (65 + n)
  else if n < 52 then Char.ofNat (97 + (n - 26))
  else if n < 62 then Char.ofNat (48 + (n - 52))
  else if n = 62 then '+'
  else '/'

/-- Inverse of the base64 alphabet (`none` for characters outside it). -/
def charSextet (c : Char) : Option Nat :=
  let n := c.toNat
  if 65 ≤ n ∧ n ≤ 90 then some (n - 65)
  else if 97 ≤ n ∧ n ≤ 122 then some (n - 97 + 26)
  else if 48 ≤ n ∧ n ≤ 57 then some (n - 48 + 52)
  else if c = '+' then some 62
  else if c = '/' then some 63
  else none

/-- Base64-encode a byte list (values < 256), with `=` padding, three bytes
to four characters. -/
def b64EncodeBytes : List Nat → List Char
  | [] => []
  | [a] => [sextetChar (a / 4), sextetChar (a % 4 * 16), '=', '=']
  | [a, b] =>
    [sextetChar (a / 4), sextetChar (a % 4 * 16 + b / 16), sextetChar (b % 16 * 4), '=']
  | a :: b :: c :: rest =>
    sextetChar (a / 4) :: sextetChar (a % 4 * 16 + b / 16)
      :: sextetChar (b % 16 * 4 + c / 64) :: sextetChar (c % 64)
      :: b64EncodeBytes rest

/-- Base64-decode to a byte list; `none` on any malformed input (bad
character, bad padding, length not a multiple of four — as `atob` throws). -/
def b64DecodeBytes : List Char → Option (List Nat)
  | [] => some []
  | c1 :: c2 :: c3 :: c4 :: rest =>
    match charSextet c1, charSextet c2 with
    | some s1, some s2 =>
      if c3 = '=' then
        if c4 = '=' ∧ rest = [] then some [s1 * 4 + s2 / 16] else none
      else
        match charSextet c3 with
        | some s3 =>
          if c4 = '=' then
            if rest = [] then some [s1 * 4 + s2 / 16, s2 % 16 * 16 + s3 / 4] else none
          else
            match charSextet c4 with
            | some s4 =>
              match b64DecodeBytes rest with
              | some bs =>
                some ((s1 * 4 + s2 / 16) :: (s2 % 16 * 16 + s3 / 4) :: (s3 % 4 * 64 + s4) :: bs)
              | none => none
            | none => none
        | none => none
    | _, _ => none
  | _ => none

/-- Model of the Web API `btoa`: treats the string's code points as bytes;
throws (`none`) as soon as some character is above `U+00FF`. -/
def btoa (s : String) : Option String :=
  if s.data.all (fun c => decide (c.toNat < 256)) then
    some ⟨b64EncodeBytes (s.data.map Char.toNat)⟩
  else none

/-- Model of the Web API `atob`: decodes to the string whose code points are
the decoded bytes; throws (`none`) on malformed base64. -/
def atob (s : String) : Option String :=
  (b64DecodeBytes s.data).map (fun bs => ⟨bs.map Char.ofNat⟩)

/- ===================== JSON string escaping / parsing ===================== -/

/-- Lowercase hexadecimal digit. -/
def hexDigit (n : Nat) : Char :=
  Char.ofNat (if n < 10 then 48 + n else 87 + n)

/-- Value of a hexadecimal digit character (either case). -/
def hexVal (c : Char) : Option Nat :=
  let n := c.toNat
  if 48 ≤ n ∧ n ≤ 57 then some (n - 48)
  else if 97 ≤ n ∧ n ≤ 102 then some (n - 87)
  else if 65 ≤ n ∧ n ≤ 70 then some (n - 55)
  else none

/-- Escaping of one character inside a JSON string literal, as
`JSON.stringify` performs it: `"` and `\` get a backslash, the named control
escapes are used for 8/9/10/12/13, other control characters become
`\u00xx`, and everything else (including all non-ASCII) is left as is. -/
def jsonEscapeChar (c : Char) : List Char :=
  if c = '"' then ['\\', '"']
  else if c = '\\' then ['\\', '\\']
  else if c.toNat = 8 then ['\\', 'b']
  else if c.toNat = 9 then ['\\', 't']
  else if c.toNat = 10 then ['\\', 'n']
  else if c.toNat = 12 then ['\\', 'f']
  else if c.toNat = 13 then ['\\', 'r']
  else if c.toNat < 32 then
    ['\\', 'u', '0', '0', hexDigit (c.toNat / 16), hexDigit (c.toNat % 16)]
  else [c]

/-- `jsonEscapeChar` mapped over a character list. -/
def escList : List Char → List Char
  | [] => []
  | c :: cs => jsonEscapeChar c ++ escList cs

/-- The single-character JSON escapes accepted after a backslash. -/
def parseEsc (e : Char) : Option Char :=
  if e = '"' then some '"'
  else if e = '\\' then some '\\'
  else if e = '/' then some '/'
  else if e = 'b' then some (Char.ofNat 8)
  else if e = 'f' then some (Char.ofNat 12)
  else if e = 'n' then some (Char.ofNat 10)
  else if e = 'r' then some (Char.ofNat 13)
  else if e = 't' then some (Char.ofNat 9)
  else none

/-- Parser for the body of a JSON string literal (the opening quote already
consumed), as `JSON.parse` reads it: returns the decoded characters and the
input remaining after the closing quote; `none` on an unescaped control
character, a bad escape, or a missing closing quote. (Surrogate-pair
recombination is irrelevant here: the escaper only emits `\u00xx`.) -/
def parseJStr : List Char → Option (List Char × List Char)
  | [] => none
  | c :: rest =>
    if c = '"' then some ([], rest)
    else if c = '\\' then
      match rest with
      | [] => none
      | 'u' :: h1 :: h2 :: h3 :: h4 :: rest2 =>
        match hexVal h1, hexVal h2, hexVal h3, hexVal h4 with
        | some a, some b, some x, some y =>
          (parseJStr rest2).map
            (fun pr => (Char.ofNat (a * 4096 + b * 256 + x * 16 + y) :: pr.1, pr.2))
        | _, _, _, _ => none
      | e :: rest2 =>
        match parseEsc e with
        | some ch => (parseJStr rest2).map (fun pr => (ch :: pr.1, pr.2))
        | none => none
    else if c.toNat < 32 then none
    else (parseJStr rest).map (fun pr => (c :: pr.1, pr.2))

/- ===================== The anti-forgery state codec ===================== -/

/-- `OAuthState` in `types.ts`. -/
structure OAuthState where
  redirect : String
  nonce : String
deriving DecidableEq

/-- Left brace character (code point 123). -/
def lbrace : Char := Char.ofNat 123

/-- Right brace character (code point 125). -/
def rbrace : Char := Char.ofNat 125

/-- `JSON.stringify({redirect, nonce})` for the two-field state object. -/
def stringifyOAuthState (redirect nonce : String) : String :=
  ⟨lbrace :: "\"redirect\":\"".data
    ++ escList redirect.data
    ++ "\",\"nonce\":\"".data
    ++ escList nonce.data
    ++ '"' :: [rbrace]⟩

/-- Consume an expected literal prefix. -/
def dropLit : List Char → List Char → Option (List Char)
  | [], l => some l
  | _ :: _, [] => none
  | c :: cs, d :: ds => if c = d then dropLit cs ds else none

/-- `JSON.parse` specialised to the exact object shape
`{"redirect":<string>,"nonce":<string>}` that the login handlers serialise
(the only shape whose parse result the callback code consumes). -/
def parseStateChars (l : List Char) : Option OAuthState :=
  match dropLit (lbrace :: "\"redirect\":\"".data) l with
  | none => none
  | some l1 =>
    match parseJStr l1 with
    | none => none
    | some (r, l2) =>
      match dropLit (",\"nonce\":\"".data) l2 with
      | none => none
      | some l3 =>
        match parseJStr l3 with
        | none => none
        | some (n, l4) => if l4 = [rbrace] then some ⟨⟨r⟩, ⟨n⟩⟩ else none

/-- From `google-oauth.ts` (`handleGoogleLogin`) and `lineworks-oauth.ts`
(`handleLineworksLogin`): `btoa(JSON.stringify(state))`; `none` models the
`InvalidCharacterError` thrown by `btoa` on characters above `U+00FF`. -/
def encodeOAuthState (redirect nonce : String) : Option String :=
  btoa (stringifyOAuthState redirect nonce)

/-- From the callback handlers: `JSON.parse(atob(stateParam))` inside
`try/catch` (`none` = the catch branch). -/
def decodeOAuthState (s : String) : Option OAuthState :=
  match atob s with
  | none => none
  | some t => parseStateChars t.data

/- ===================== base64 roundtrip lemmas ===================== -/

theorem charSextet_sextetChar : ∀ n, n < 64 → charSextet (sextetChar n) = some n := by decide

theorem sextetChar_ne_pad (n : Nat) (h : n < 64) : sextetChar n ≠ '=' := by
  intro he
  have h2 := charSextet_sextetChar n h
  rw [he] at h2
  have h3 : charSextet '=' = none := by decide
  rw [h3] at h2
  exact Option.noConfusion h2

theorem b64DecodeBytes_encode :
    ∀ (fuel : Nat) (l : List Nat), l.length ≤ fuel → (∀ b ∈ l, b < 256) →
      b64DecodeBytes (b64EncodeBytes l) = some l := by
  intro fuel
  induction fuel with
  | zero =>
    intro l hl _
    have : l = [] := List.eq_nil_of_length_eq_zero (Nat.le_zero.mp hl)
    subst this
    rfl
  | succ m ih =>
    intro l hl hb
    match l with
    | [] => rfl
    | [a] =>
      have ha : a < 256 := hb a (by simp)
      have h1 := charSextet_sextetChar (a / 4) (by omega)
      have h2 := charSextet_sextetChar (a % 4 * 16) (by omega)
      simp [b64EncodeBytes, b64DecodeBytes, h1, h2]
      omega
    | [a, b] =>
      have ha : a < 256 := hb a (by simp)
      have hbb : b < 256 := hb b (by simp)
      have h1 := charSextet_sextetChar (a / 4) (by omega)
      have h2 := charSextet_sextetChar (a % 4 * 16 + b / 16) (by omega)
      have h3 := charSextet_sextetChar (b % 16 * 4) (by omega)
      have hne3 := sextetChar_ne_pad (b % 16 * 4) (by omega)
      simp [b64EncodeBytes, b64DecodeBytes, h1, h2, h3, hne3]
      omega
    | a :: b :: c :: rest =>
      have ha : a < 256 := hb a (by simp)
      have hbb : b < 256 := hb b (by simp)
      have hc : c < 256 := hb c (by simp)
      have hrest : ∀ x ∈ rest, x < 256 := fun x hx => hb x (by simp [hx])
      have hlen : rest.length ≤ m := by
        simp [List.length] at hl
        omega
      have hrec := ih rest hlen hrest
      have h1 := charSextet_sextetChar (a / 4) (by omega)
      have h2 := charSextet_sextetChar (a % 4 * 16 + b / 16) (by omega)
      have h3 := charSextet_sextetChar (b % 16 * 4 + c / 64) (by omega)
      have h4 := charSextet_sextetChar (c % 64) (by omega)
      have hne3 := sextetChar_ne_pad (b % 16 * 4 + c / 64) (by omega)
      have hne4 := sextetChar_ne_pad (c % 64) (by omega)
      simp [b64EncodeBytes, b64DecodeBytes, h1, h2, h3, h4, hne3, hne4, hrec]
      omega

theorem strMkData (s : String) : String.mk s.data = s := by cases s; rfl

theorem mapOfNatToNat : ∀ l : List Char, l.map (Char.ofNat ∘ Char.toNat) = l := by
  intro l
  induction l with
  | nil => rfl
  | cons c t iht => simp [Function.comp, Char.ofNat_toNat, iht]

theorem btoa_bind_atob (s : String) (h : ∀ c ∈ s.data, c.toNat < 256) :
    (btoa s).bind atob = some s := by
  have hall : s.data.all (fun c => decide (c.toNat < 256)) = true := by
    rw [List.all_eq_true]
    intro c hc
    exact decide_eq_true (h c hc)
  have hdec : b64DecodeBytes (b64EncodeBytes (s.data.map Char.toNat))
      = some (s.data.map Char.toNat) := by
    apply b64DecodeBytes_encode (s.data.map Char.toNat).length _ le_rfl
    intro b hbm
    rcases List.mem_map.mp hbm with ⟨c, hc, rfl⟩
    exact h c hc
  simp only [btoa, hall, if_true, Option.bind_some, atob]
  simp [hdec, List.map_map, Function.comp]
  rw [mapOfNatToNat]

/- ===================== JSON escape/parse roundtrip lemmas ===================== -/

theorem hexVal_hexDigit : ∀ k, k < 16 → hexVal (hexDigit k) = some k := by decide

theorem parseJStr_escList : ∀ (cs rest : List Char),
    parseJStr (escList cs ++ '"' :: rest) = some (cs, rest) := by
  intro cs
  induction cs with
  | nil =>
    intro rest
    show parseJStr (escList [] ++ '"' :: rest) = some ([], rest)
    rw [show escList [] ++ '"' :: rest = '"' :: rest from rfl]
    rw [parseJStr.eq_def]
    simp
  | cons c cs ih =>
    intro rest
    by_cases h1 : c = '"'
    · subst h1
      simp [escList, jsonEscapeChar, parseJStr, parseEsc, ih]
    by_cases h2 : c = '\\'
    · subst h2
      simp [escList, jsonEscapeChar, parseJStr, parseEsc, ih]
    by_cases h3 : c.toNat = 8
    · have hc : Char.ofNat 8 = c := by rw [← h3, Char.ofNat_toNat]
      simp [escList, jsonEscapeChar, h1, h2, h3, parseJStr, parseEsc, ih, hc]
      exact hc
    by_cases h4 : c.toNat = 9
    · have hc : Char.ofNat 9 = c := by rw [← h4, Char.ofNat_toNat]
      simp [escList, jsonEscapeChar, h1, h2, h3, h4, parseJStr, parseEsc, ih, hc]
      exact hc
    by_cases h5 : c.toNat = 10
    · have hc : Char.ofNat 10 = c := by rw [← h5, Char.ofNat_toNat]
      simp [escList, jsonEscapeChar, h1, h2, h3, h4, h5, parseJStr, parseEsc, ih, hc]
      exact hc
    by_cases h6 : c.toNat = 12
    · have hc : Char.ofNat 12 = c := by rw [← h6, Char.ofNat_toNat]
      simp [escList, jsonEscapeChar, h1, h2, h3, h4, h5, h6, parseJStr, parseEsc, ih, hc]
      exact hc
    by_cases h7 : c.toNat = 13
    · have hc : Char.ofNat 13 = c := by rw [← h7, Char.ofNat_toNat]
      simp [escList, jsonEscapeChar, h1, h2, h3, h4, h5, h6, h7, parseJStr, parseEsc, ih, hc]
      exact hc
    by_cases h8 : c.toNat < 32
    · have hh1 : hexVal (hexDigit (c.toNat / 16)) = some (c.toNat / 16) :=
        hexVal_hexDigit _ (by omega)
      have hh2 : hexVal (hexDigit (c.toNat % 16)) = some (c.toNat % 16) :=
        hexVal_hexDigit _ (by omega)
      have h0 : hexVal '0' = some 0 := by decide
      have hc : Char.ofNat (c.toNat / 16 * 16 + c.toNat % 16) = c := by
        have he : c.toNat / 16 * 16 + c.toNat % 16 = c.toNat := by omega
        rw [he, Char.ofNat_toNat]
      simp [escList, jsonEscapeChar, h1, h2, h3, h4, h5, h6, h7, h8, parseJStr,
        hh1, hh2, h0, hc, ih]
    · have hg : escList (c :: cs) ++ '"' :: rest
          = c :: (escList cs ++ '"' :: rest) := by
        simp [escList, jsonEscapeChar, h1, h2, h3, h4, h5, h6, h7, h8]
      rw [hg, parseJStr.eq_def]
      simp [h1, h2, h8, ih]

theorem dropLit_append : ∀ (lit t : List Char), dropLit lit (lit ++ t) = some t := by
  intro lit
  induction lit with
  | nil => intro t; rfl
  | cons c cs ih => intro t; simp [dropLit, ih]

theorem parseStateChars_stringify (r n : String) :
    parseStateChars (stringifyOAuthState r n).data = some ⟨r, n⟩ := by
  have hB : "\",\"nonce\":\"".data = '"' :: ",\"nonce\":\"".data := rfl
  have h1 : (stringifyOAuthState r n).data
      = (lbrace :: "\"redirect\":\"".data)
        ++ (escList r.data ++ ('"' :: (",\"nonce\":\"".data
        ++ (escList n.data ++ ('"' :: [rbrace]))))) := by
    simp [stringifyOAuthState, hB, List.append_assoc, List.cons_append]
  rw [h1]
  have hd1 : dropLit (lbrace :: "\"redirect\":\"".data)
      ((lbrace :: "\"redirect\":\"".data)
        ++ (escList r.data ++ ('"' :: (",\"nonce\":\"".data
        ++ (escList n.data ++ ('"' :: [rbrace])))))) =
      some (escList r.data ++ ('"' :: (",\"nonce\":\"".data
        ++ (escList n.data ++ ('"' :: [rbrace]))))) := dropLit_append _ _
  have hp1 := parseJStr_escList r.data
    (",\"nonce\":\"".data ++ (escList n.data ++ ('"' :: [rbrace])))
  have hd2 := dropLit_append ",\"nonce\":\"".data (escList n.data ++ ('"' :: [rbrace]))
  have hp2 := parseJStr_escList n.data [rbrace]
  simp only [parseStateChars, hd1, hp1, hd2, hp2]
  simp [strMkData]

theorem hexDigit_lt256 : ∀ k, k < 16 → (hexDigit k).toNat < 256 := by decide

theorem jsonEscapeChar_lt256 (c : Char) (hc : c.toNat < 256) :
    ∀ d ∈ jsonEscapeChar c, d.toNat < 256 := by
  intro d hd
  unfold jsonEscapeChar at hd
  split_ifs at hd with h1 h2 h3 h4 h5 h6 h7 h8
  · rcases List.mem_pair.mp hd with rfl | rfl <;> decide
  · rcases List.mem_pair.mp hd with rfl | rfl <;> decide
  · rcases List.mem_pair.mp hd with rfl | rfl <;> decide
  · rcases List.mem_pair.mp hd with rfl | rfl <;> decide
  · rcases List.mem_pair.mp hd with rfl | rfl <;> decide
  · rcases List.mem_pair.mp hd with rfl | rfl <;> decide
  · rcases List.mem_pair.mp hd with rfl | rfl <;> decide
  · simp only [List.mem_cons, List.not_mem_nil, or_false] at hd
    rcases hd with rfl | rfl | rfl | rfl | rfl | rfl
    · decide
    · decide
    · decide
    · decide
    · exact hexDigit_lt256 _ (by omega)
    · exact hexDigit_lt256 _ (by omega)
  · simp only [List.mem_singleton] at hd
    subst hd
    exact hc

theorem escList_lt256 : ∀ (l : List Char), (∀ c ∈ l, c.toNat < 256) →
    ∀ d ∈ escList l, d.toNat < 256 := by
  intro l
  induction l with
  | nil => intro _ d hd; simp [escList] at hd
  | cons c cs ih =>
    intro h d hd
    simp only [escList, List.mem_append] at hd
    rcases hd with hd | hd
    · exact jsonEscapeChar_lt256 c (h c (by simp)) d hd
    · exact ih (fun x hx => h x (by simp [hx])) d hd

theorem stringify_lt256 (r n : String)
    (hr : ∀ c ∈ r.data, c.toNat < 256) (hn : ∀ c ∈ n.data, c.toNat < 256) :
    ∀ c ∈ (stringifyOAuthState r n).data, c.toNat < 256 := by
  intro c hc
  have hdata : (stringifyOAuthState r n).data
      = (lbrace :: "\"redirect\":\"".data)
        ++ (escList r.data ++ ("\",\"nonce\":\"".data
        ++ (escList n.data ++ ('"' :: [rbrace])))) := by
    simp [stringifyOAuthState, List.append_assoc]
  rw [hdata] at hc
  rcases List.mem_append.mp hc with hc | hc
  · have hlit : ∀ x ∈ lbrace :: "\"redirect\":\"".data, x.toNat < 256 := by decide
    exact hlit c hc
  rcases List.mem_append.mp hc with hc | hc
  · exact escList_lt256 r.data hr c hc
  rcases List.mem_append.mp hc with hc | hc
  · have hlit : ∀ x ∈ "\",\"nonce\":\"".data, x.toNat < 256 := by decide
    exact hlit c hc
  rcases List.mem_append.mp hc with hc | hc
  · exact escList_lt256 n.data hn c hc
  · have hlit : ∀ x ∈ ('"' :: [rbrace]), x.toNat < 256 := by decide
    exact hlit c hc

/- ===================== Claim C4 (corrected) ===================== -/

/-- C4 counterexample: the claimed law `decode(encode(redirect, nonce)) ==
(redirect, nonce)` does not hold for every pair: for `redirect = "日"` the
serialized state contains a character above `U+00FF`, so `btoa` throws
(`encodeOAuthState` returns `none`) and no roundtrip value is produced. -/
theorem c4_roundtrip_counterexample :
    encodeOAuthState "日" "x" = none
    ∧ (encodeOAuthState "日" "x").bind decodeOAuthState ≠ some ⟨"日", "x"⟩ := by
  constructor
  · decide
  · decide

/-- C4 amended: for every pair `(redirect, nonce)` all of whose characters
lie at or below `U+00FF` (so that `btoa` accepts the serialized JSON),
decoding the encoded anti-forgery state yields exactly the original pair:
`decode(encode(redirect, nonce)) = (redirect, nonce)`. -/
theorem c4_state_roundtrip_latin1 (r n : String)
    (hr : ∀ c ∈ r.data, c.toNat < 256) (hn : ∀ c ∈ n.data, c.toNat < 256) :
    (encodeOAuthState r n).bind decodeOAuthState = some ⟨r, n⟩ := by
  have hba := btoa_bind_atob (stringifyOAuthState r n) (stringify_lt256 r n hr hn)
  rcases Option.bind_eq_some.mp hba with ⟨y, hy, hay⟩
  have h1 : encodeOAuthState r n = some y := hy
  rw [h1]
  show decodeOAuthState y = some ⟨r, n⟩
  simp only [decodeOAuthState, hay]
  exact parseStateChars_stringify r n

/-- Witness for the amended C4 at concrete inputs. -/
theorem c4_state_roundtrip_latin1_witness :
    (encodeOAuthState "/dash" "n0").bind decodeOAuthState = some ⟨"/dash", "n0"⟩ :=
  c4_state_roundtrip_latin1 "/dash" "n0" (by decide) (by decide)

/- ===================== OAuth callback handlers ===================== -/

/-- A request as seen by the two callback handlers: the `error`, `code` and
`state` query parameters, and the parsed cookie jar (string-valued). -/
structure CallbackRequest where
  error : Option String
  code : Option String
  state : Option String
  cookies : List (String × String)
deriving DecidableEq

/-- From `session.ts` (`getStateCookie`): reads the `oauth_state` cookie;
`cookies['oauth_state'] || null` maps an absent or empty cookie to `null`. -/
def getStateCookie (req : CallbackRequest) : Option String :=
  match recGet req.cookies "oauth_state" with
  | some v => if v = "" then none else some v
  | none => none

/-- The possible responses of a callback handler, by source branch. -/
inductive CallbackOutcome
  | oauthError (msg : String)
  | missingParams
  | stateMismatch
  | invalidState
  | configError
  | tokenExchangeFailed
  | userInfoFailed
  | emailNotAllowed
  | success (cookie : SetCookie) (location : String)
deriving DecidableEq

/-- The HTTP status each outcome is sent with (`configError` is an uncaught
exception, surfaced as a 500 by the platform). -/
def statusOf : CallbackOutcome → Nat
  | .oauthError _ => 400
  | .missingParams => 400
  | .stateMismatch => 400
  | .invalidState => 400
  | .configError => 500
  | .tokenExchangeFailed => 500
  | .userInfoFailed => 500
  | .emailNotAllowed => 403
  | .success _ _ => 302

/-- Oracle for the two Google network calls of the callback: the token
exchange (`ok` = `tokenResponse.ok`) and the userinfo fetch, with the parsed
profile fields on success. -/
structure GoogleNet where
  tokenOk : Bool
  accessToken : String
  userOk : Bool
  userId : String
  userEmail : String
  userName : String
deriving DecidableEq

/-- From `google-oauth.ts` (`handleGoogleCallback`), step by step: provider
`error` parameter → 400; missing/empty `code` or `state` → 400; `state`
query parameter not equal to the `oauth_state` cookie (absence included) →
`State mismatch` 400; undecodable state → 400; then config lookup, token
exchange, profile fetch; then the allowlist check (skipped when
`ALLOWED_EMAILS` is unset or empty); finally the session cookie is minted
for the fetched profile with `provider: 'google'` and the response redirects
to the decoded `state.redirect`. -/
def handleGoogleCallback (req : CallbackRequest) (env : Env) (net : GoogleNet)
    (now : Int) : CallbackOutcome :=
  if jsTruthy req.error then .oauthError (jsOrElse req.error "")
  else if !(jsTruthy req.code) || !(jsTruthy req.state) then .missingParams
  else if getStateCookie req ≠ req.state then .stateMismatch
  else
    match decodeOAuthState (jsOrElse req.state "") with
    | none => .invalidState
    | some st =>
      match env.googleConfig with
      | none => .configError
      | some _ =>
        if !net.tokenOk then .tokenExchangeFailed
        else if !net.userOk then .userInfoFailed
        else if jsTruthy env.ALLOWED_EMAILS
            && !(isEmailAllowed net.userEmail (jsOrElse env.ALLOWED_EMAILS "")) then
          .emailNotAllowed
        else
          .success (createSessionCookie ⟨net.userId, net.userEmail, net.userName, "google"⟩ env now)
            st.redirect

/-- The optional `userName` object of the LINE WORKS profile. -/
structure LwName where
  lastName : Option String
  firstName : Option String
deriving DecidableEq

/-- Oracle for the two LINE WORKS network calls of the callback. -/
structure LineworksNet where
  tokenOk : Bool
  accessToken : String
  userOk : Bool
  userId : String
  email : Option String
  userName : Option LwName
deriving DecidableEq

/-- From `lineworks-oauth.ts` (`handleLineworksCallback`): identical control
flow to the Google handler; the profile differs — `email` falls back to
`` `${userId}@lineworks` `` when the provider supplies none, and `name` is
`` `${lastName} ${firstName}`.trim() `` when `userName` is present, else the
user id; the session is minted with `provider: 'lineworks'`. -/
def handleLineworksCallback (req : CallbackRequest) (env : Env)
    (net : LineworksNet) (now : Int) : CallbackOutcome :=
  if jsTruthy req.error then .oauthError (jsOrElse req.error "")
  else if !(jsTruthy req.code) || !(jsTruthy req.state) then .missingParams
  else if getStateCookie req ≠ req.state then .stateMismatch
  else
    match decodeOAuthState (jsOrElse req.state "") with
    | none => .invalidState
    | some st =>
      match env.lineworksConfig with
      | none => .configError
      | some _ =>
        if !net.tokenOk then .tokenExchangeFailed
        else if !net.userOk then .userInfoFailed
        else
          let email := jsOrElse net.email (net.userId ++ "@lineworks")
          let name :=
            match net.userName with
            | some nm => jsTrim (jsOrElse nm.lastName "" ++ " " ++ jsOrElse nm.firstName "")
            | none => net.userId
          if jsTruthy env.ALLOWED_EMAILS
              && !(isEmailAllowed email (jsOrElse env.ALLOWED_EMAILS "")) then
            .emailNotAllowed
          else
            .success (createSessionCookie ⟨net.userId, email, name, "lineworks"⟩ env now)
              st.redirect

/- ===================== Theorems C2 and C10 ===================== -/

/-- C2: a callback request that carries a (non-empty) `code` and `state` and
no provider `error` parameter, whose `state` does not equal the
`oauth_state` cookie value (the absent-cookie case included), is rejected by
both provider callback handlers with the `State mismatch` branch — an HTTP
400 — before the state is ever decoded and before any session is issued,
whatever the network oracles and clock. -/
theorem c2_state_mismatch_rejected
    (req : CallbackRequest) (envG envL : Env) (netG : GoogleNet)
    (netL : LineworksNet) (nowG nowL : Int)
    (herr : req.error = none)
    (hcode : jsTruthy req.code = true)
    (hstate : jsTruthy req.state = true)
    (hmismatch : getStateCookie req ≠ req.state) :
    handleGoogleCallback req envG netG nowG = .stateMismatch
    ∧ handleLineworksCallback req envL netL nowL = .stateMismatch
    ∧ statusOf .stateMismatch = 400 := by
  have herrF : jsTruthy req.error = false := by rw [herr]; rfl
  refine ⟨?_, ?_, rfl⟩
  · simp [handleGoogleCallback, herrF, hcode, hstate, hmismatch]
  · simp [handleLineworksCallback, herrF, hcode, hstate, hmismatch]

/-- Witness for C2 at concrete inputs (the cookie is absent altogether). -/
theorem c2_state_mismatch_rejected_witness :
    handleGoogleCallback ⟨none, some "c0", some "s0", []⟩
        ⟨"k", none, "t", none, none, none⟩ ⟨true, "at", true, "id", "e@x.y", "E"⟩ 0
      = .stateMismatch
    ∧ handleLineworksCallback ⟨none, some "c0", some "s0", []⟩
        ⟨"k", none, "t", none, none, none⟩ ⟨true, "at", true, "id", none, none⟩ 0
      = .stateMismatch
    ∧ statusOf .stateMismatch = 400 :=
  c2_state_mismatch_rejected ⟨none, some "c0", some "s0", []⟩
    ⟨"k", none, "t", none, none, none⟩ ⟨"k", none, "t", none, none, none⟩
    ⟨true, "at", true, "id", "e@x.y", "E"⟩ ⟨true, "at", true, "id", none, none⟩ 0 0
    rfl (by decide) (by decide) (by decide)

/-- C10: when `ALLOWED_EMAILS` is absent or the empty string, both callback
handlers skip the allowlist check entirely: any identity that passes the
state check, config lookup, token exchange and profile fetch is issued a
session credential, whatever its email address. -/
theorem c10_allowlist_skipped_when_unset
    (req : CallbackRequest) (env : Env) (netG : GoogleNet) (netL : LineworksNet)
    (now : Int) (s : String) (st : OAuthState)
    (hallow : env.ALLOWED_EMAILS = none ∨ env.ALLOWED_EMAILS = some "")
    (herr : req.error = none)
    (hcode : jsTruthy req.code = true)
    (hstate : req.state = some s) (hs : s ≠ "")
    (hcookie : getStateCookie req = some s)
    (hdec : decodeOAuthState s = some st)
    (hgcfg : env.googleConfig.isSome) (hlcfg : env.lineworksConfig.isSome)
    (htokG : netG.tokenOk = true) (huserG : netG.userOk = true)
    (htokL : netL.tokenOk = true) (huserL : netL.userOk = true) :
    handleGoogleCallback req env netG now
      = .success
          (createSessionCookie ⟨netG.userId, netG.userEmail, netG.userName, "google"⟩ env now)
          st.redirect
    ∧ handleLineworksCallback req env netL now
      = .success
          (createSessionCookie
            ⟨netL.userId, jsOrElse netL.email (netL.userId ++ "@lineworks"),
             (match netL.userName with
              | some nm => jsTrim (jsOrElse nm.lastName "" ++ " " ++ jsOrElse nm.firstName "")
              | none => netL.userId),
             "lineworks"⟩ env now)
          st.redirect := by
  have hat : jsTruthy env.ALLOWED_EMAILS = false := by
    rcases hallow with h | h <;> simp [h, jsTruthy]
  have hstt : jsTruthy req.state = true := by simp [hstate, jsTruthy, hs]
  have hmm : ¬ (getStateCookie req ≠ req.state) := by simp [hcookie, hstate]
  have hor : jsOrElse req.state "" = s := by simp [hstate, jsOrElse, hs]
  have herrF : jsTruthy req.error = false := by rw [herr]; rfl
  rcases Option.isSome_iff_exists.mp hgcfg with ⟨gcfg, hg⟩
  rcases Option.isSome_iff_exists.mp hlcfg with ⟨lcfg, hl⟩
  constructor
  · simp [handleGoogleCallback, herrF, hcode, hstt, hmm, hor, hdec, hg, htokG,
      huserG, hat]
  · simp [handleLineworksCallback, herrF, hcode, hstt, hmm, hor, hdec, hl, htokL,
      huserL, hat]

/-- Witness for C10 at concrete inputs: the state cookie matches, the state
decodes to `{redirect: "/", nonce: "n"}`, the profile email is arbitrary,
and both handlers mint a session. -/
theorem c10_allowlist_skipped_when_unset_witness :
    handleGoogleCallback
        ⟨none, some "c0", some "eyJyZWRpcmVjdCI6Ii8iLCJub25jZSI6Im4ifQ==",
         [("oauth_state", "eyJyZWRpcmVjdCI6Ii8iLCJub25jZSI6Im4ifQ==")]⟩
        ⟨"k", none, "t", none, some ⟨"cid", "cs"⟩, some ⟨"lid", "ls"⟩⟩
        ⟨true, "at", true, "id1", "anyone@anywhere.example", "Any One"⟩ 7
      = .success
          (createSessionCookie ⟨"id1", "anyone@anywhere.example", "Any One", "google"⟩
            ⟨"k", none, "t", none, some ⟨"cid", "cs"⟩, some ⟨"lid", "ls"⟩⟩ 7)
          "/"
    ∧ handleLineworksCallback
        ⟨none, some "c0", some "eyJyZWRpcmVjdCI6Ii8iLCJub25jZSI6Im4ifQ==",
         [("oauth_state", "eyJyZWRpcmVjdCI6Ii8iLCJub25jZSI6Im4ifQ==")]⟩
        ⟨"k", none, "t", none, some ⟨"cid", "cs"⟩, some ⟨"lid", "ls"⟩⟩
        ⟨true, "at", true, "u1", none, none⟩ 7
      = .success
          (createSessionCookie ⟨"u1", "u1@lineworks", "u1", "lineworks"⟩
            ⟨"k", none, "t", none, some ⟨"cid", "cs"⟩, some ⟨"lid", "ls"⟩⟩ 7)
          "/" := by
  have h := c10_allowlist_skipped_when_unset
    ⟨none, some "c0", some "eyJyZWRpcmVjdCI6Ii8iLCJub25jZSI6Im4ifQ==",
     [("oauth_state", "eyJyZWRpcmVjdCI6Ii8iLCJub25jZSI6Im4ifQ==")]⟩
    ⟨"k", none, "t", none, some ⟨"cid", "cs"⟩, some ⟨"lid", "ls"⟩⟩
    ⟨true, "at", true, "id1", "anyone@anywhere.example", "Any One"⟩
    ⟨true, "at", true, "u1", none, none⟩ 7
    "eyJyZWRpcmVjdCI6Ii8iLCJub25jZSI6Im4ifQ==" ⟨"/", "n"⟩
    (Or.inl rfl) rfl (by decide) rfl (by decide) (by decide) (by decide)
    rfl rfl rfl rfl rfl rfl
  exact ⟨h.1, h.2⟩
